import Mathlib

/-!
Verification of the in-memory query engine (`DataService`) and entity
construction helpers of the tokeniko repository
(`src/components/Dashboard.tsx`, lines 480-720, and `src/types/index.ts`).

The engine is embedded shallowly:

* Runtime attribute values are modelled by `Value` (strings, integer
  numbers, booleans and `undefined`).  JavaScript numbers are restricted
  to integers; no claim exercises float-specific behaviour.
* An entity is its list of own enumerable properties in insertion order,
  `List (String × Value)`, which is what `Object.values` and the dynamic
  index access `item[field]` of the source observe.
* `Array.prototype.sort` is modelled by the stable `List.mergeSort`
  (ES2019 requires sort stability; for comparators that are not
  consistent the ECMAScript result is implementation-defined and the
  stable merge sort is one admissible refinement).
* `Array.prototype.slice` and `String.prototype.slice`/`substring` are
  translated with their ECMAScript index clamping, including negative
  indices.
* String ordering (`<` on two strings) is the JavaScript code-unit
  comparison, modelled on `Char.toNat`; case mapping uses `Char.toLower`
  / `Char.toUpper` which agree with `toLowerCase` / `toUpperCase` on the
  ASCII data the repository manipulates.
-/

/-- Runtime value of an entity attribute (the `unknown` of
`[key: string]: unknown` restricted to the shapes the repository stores:
strings, numbers (as integers), booleans, and `undefined`). -/
inductive Value where
  | vStr (s : String)
  | vNum (n : Int)
  | vBool (b : Bool)
  | vUndef
deriving DecidableEq

/-- An entity: its own enumerable properties in insertion order.
`BaseEntity` of `src/types/index.ts` with the open index signature. -/
abbrev Entity := List (String × Value)

/-- Dynamic property read `item[field]`: the stored value, or
`undefined` when the entity has no such own property. -/
def getField (e : Entity) (f : String) : Value :=
  match e.lookup f with
  | some v => v
  | none => Value.vUndef

/-- `Object.values(item)`: the own enumerable property values in
insertion order. -/
def entityValues (e : Entity) : List Value :=
  e.map Prod.snd

/-- `typeof v === 'string'`. -/
def isStr : Value → Bool
  | Value.vStr _ => true
  | _ => false

/-- The string carried by a string value (and `""` on every other
value; callers guard with `isStr`). -/
def strVal : Value → String
  | Value.vStr s => s
  | _ => ""

/-- Does the entity own at least one string-typed attribute value?
Every `BaseEntity` does, because `id : string` is an own property. -/
def hasStringVal (e : Entity) : Bool :=
  (entityValues e).any isStr

/-- `String.prototype.toLowerCase` (ASCII case mapping). -/
def strLower (s : String) : String :=
  ⟨s.data.map Char.toLower⟩

/-- `String.prototype.toUpperCase` (ASCII case mapping). -/
def strUpper (s : String) : String :=
  ⟨s.data.map Char.toUpper⟩

/-- Is `p` a leading block of `s`?  Used to translate
`String.prototype.startsWith` (on already-lowered character data). -/
def prefAt : List Char → List Char → Bool
  | [], _ => true
  | _ :: _, [] => false
  | a :: as, b :: bs => a == b && prefAt as bs

/-- Does `s` contain `p` as a contiguous block?  Translates
`String.prototype.includes`. -/
def inclAt (p : List Char) : List Char → Bool
  | [] => prefAt p []
  | c :: t => prefAt p (c :: t) || inclAt p t

/-- Is `p` a trailing block of `s`?  Translates
`String.prototype.endsWith`. -/
def sufAt (p s : List Char) : Bool :=
  prefAt p.reverse s.reverse

/-- JavaScript `<` on two strings: lexicographic comparison of the code
units (modelled on `Char.toNat`). -/
def listStrLt : List Char → List Char → Bool
  | _, [] => false
  | [], _ :: _ => true
  | a :: as, b :: bs =>
    if a.toNat < b.toNat then true
    else if b.toNat < a.toNat then false
    else listStrLt as bs

/-- Decimal integer value of a digit string (helper for `ToNumber`). -/
def natOfDigits (cs : List Char) : Nat :=
  cs.foldl (fun acc c => 10 * acc + (c.toNat - 48)) 0

/-- `ToNumber` on a string, restricted to optionally signed decimal
integer literals; every other string is NaN (`none`).  The empty string
converts to `0` as in JavaScript. -/
def strToNum (s : String) : Option Int :=
  match s.data with
  | [] => some 0
  | '-' :: rest =>
    if rest ≠ [] && rest.all Char.isDigit then some (-(natOfDigits rest : Int)) else none
  | cs =>
    if cs.all Char.isDigit then some (natOfDigits cs : Int) else none

/-- `ToNumber` of a `Value`; `none` is NaN (so every comparison with it
is false). -/
def toNum : Value → Option Int
  | Value.vNum n => some n
  | Value.vBool b => some (if b then 1 else 0)
  | Value.vUndef => none
  | Value.vStr s => strToNum s

/-- JavaScript `a < b` (abstract relational comparison): string-to-string
comparisons are lexicographic on code units, every other pair is compared
numerically after `ToNumber`, and any NaN operand makes the comparison
false.  `a > b` is the same comparison with swapped operands. -/
def jsLt (a b : Value) : Bool :=
  match a, b with
  | Value.vStr s, Value.vStr t => listStrLt s.data t.data
  | a, b =>
    match toNum a, toNum b with
    | some x, some y => decide (x < y)
    | _, _ => false

/-- `FilterCriteria<T>` of `src/types/index.ts`.  The operator is kept as
its runtime string so that values outside the `FilterOperator`
enumeration are representable (the `default` branch of the source's
`switch`). -/
structure FilterCriteria where
  field : String
  value : Value
  operator : String
deriving DecidableEq

/-- `SortOrder` of `src/types/index.ts`. -/
inductive SortOrder where
  | asc
  | desc
deriving DecidableEq

/-- `SearchParameters<T>` of `src/types/index.ts`; absent optional
fields are `none`. -/
structure SearchParameters where
  query : Option String
  filters : Option (List FilterCriteria)
  sortBy : Option String
  sortOrder : Option SortOrder
  page : Option Int
  limit : Option Nat
deriving DecidableEq

/-- `PaginationMeta` of `src/types/index.ts`. -/
structure PaginationMeta where
  currentPage : Int
  totalPages : Nat
  totalItems : Nat
  itemsPerPage : Nat
  hasNextPage : Bool
  hasPreviousPage : Bool
deriving DecidableEq

/-- `PaginatedResponse<T>`: the `ApiResponse` fields the source actually
sets plus the pagination metadata. -/
structure PaginatedResponse where
  success : Bool
  data : List Entity
  error : Option String
  meta : PaginationMeta
deriving DecidableEq

/-- `DataService.applyFilter` (Dashboard.tsx lines 680-712).  The
`switch` on the operator string is an equality chain ending in the
`default: return false` branch. -/
def applyFilter (item : Entity) (fc : FilterCriteria) : Bool :=
  let itemValue := getField item fc.field
  let filterValue := fc.value
  if fc.operator = "EQUALS" then
    itemValue == filterValue
  else if fc.operator = "CONTAINS" then
    match itemValue, filterValue with
    | Value.vStr s, Value.vStr t => inclAt (strLower t).data (strLower s).data
    | _, _ => false
  else if fc.operator = "STARTS_WITH" then
    match itemValue, filterValue with
    | Value.vStr s, Value.vStr t => prefAt (strLower t).data (strLower s).data
    | _, _ => false
  else if fc.operator = "ENDS_WITH" then
    match itemValue, filterValue with
    | Value.vStr s, Value.vStr t => sufAt (strLower t).data (strLower s).data
    | _, _ => false
  else if fc.operator = "GREATER_THAN" then
    jsLt filterValue itemValue
  else if fc.operator = "LESS_THAN" then
    jsLt itemValue filterValue
  else
    false

/-- Free-text match of one entity (Dashboard.tsx lines 628-633): some own
attribute value is a string whose lowering contains the already-lowered
query. -/
def textMatch (loweredQuery : String) (item : Entity) : Bool :=
  (entityValues item).any fun v =>
    match v with
    | Value.vStr s => inclAt loweredQuery.data (strLower s).data
    | _ => false

/-- Free-text stage of `search` (lines 626-634).  `params.query &&`
is JavaScript truthiness, so an empty query string skips the stage. -/
def textFiltered (ps : SearchParameters) (data : List Entity) : List Entity :=
  match ps.query with
  | none => data
  | some q => if q = "" then data else data.filter (textMatch (strLower q))

/-- Structured-filter stage of `search` (lines 636-640): an entity stays
when it satisfies every filter. -/
def structFiltered (ps : SearchParameters) (data : List Entity) : List Entity :=
  match ps.filters with
  | none => data
  | some fs => if fs.length > 0 then data.filter (fun item => fs.all (applyFilter item)) else data

/-- The sort comparator of `search` (lines 643-652). -/
def searchCmp (sb : String) (so : Option SortOrder) (a b : Entity) : Int :=
  let aValue := getField a sb
  let bValue := getField b sb
  if jsLt aValue bValue then (if so == some SortOrder.desc then 1 else -1)
  else if jsLt bValue aValue then (if so == some SortOrder.desc then -1 else 1)
  else 0

/-- The boolean "may precede" relation induced by a three-way
comparator. -/
def leOf (cmp : Entity → Entity → Int) (a b : Entity) : Bool :=
  decide (cmp a b ≤ 0)

/-- `Array.prototype.sort` with a comparator: the ES2019 stable sort,
modelled by `List.mergeSort`. -/
def jsSort (cmp : Entity → Entity → Int) (l : List Entity) : List Entity :=
  l.mergeSort (leOf cmp)

/-- Sort stage of `search` (lines 642-653).  `if (params.sortBy)` is
truthiness, so an empty field name skips the stage. -/
def sortedStage (ps : SearchParameters) (data : List Entity) : List Entity :=
  match ps.sortBy with
  | none => data
  | some sb => if sb = "" then data else jsSort (searchCmp sb ps.sortOrder) data

/-- The filtered-and-sorted candidate set of one `search` call: free-text
filter, then structured filters, then sort (lines 624-653). -/
def candidateList (ps : SearchParameters) (data : List Entity) : List Entity :=
  sortedStage ps (structFiltered ps (textFiltered ps data))

/-- Clamp one `Array.prototype.slice` index to `[0, len]`: negative
indices count from the end. -/
def sliceIdx (len : Nat) (i : Int) : Nat :=
  if i < 0 then (max ((len : Int) + i) 0).toNat else min i.toNat len

/-- `Array.prototype.slice(start, stop)` with ECMAScript index
semantics. -/
def jsSlice (l : List α) (start stop : Int) : List α :=
  (l.take (sliceIdx l.length stop)).drop (sliceIdx l.length start)

/-- `Math.ceil(totalItems / limit)` for a positive integer `limit` (the
source's `limit` defaults to 10; a zero limit would produce the float
`Infinity`, which has no counterpart here and is outside every claim). -/
def totalPagesCalc (totalItems limit : Nat) : Nat :=
  (totalItems + limit - 1) / limit

/-- `DataService.search` (Dashboard.tsx lines 623-678). -/
def search (data : List Entity) (ps : SearchParameters) : PaginatedResponse :=
  let filteredData := candidateList ps data
  let page : Int := ps.page.getD 1
  let limit : Nat := ps.limit.getD 10
  let startIndex : Int := (page - 1) * limit
  let endIndex : Int := startIndex + limit
  let paginatedData := jsSlice filteredData startIndex endIndex
  let totalItems := filteredData.length
  let totalPages := totalPagesCalc totalItems limit
  { success := true
    data := paginatedData
    error := none
    meta :=
      { currentPage := page
        totalPages := totalPages
        totalItems := totalItems
        itemsPerPage := limit
        hasNextPage := decide (page < (totalPages : Int))
        hasPreviousPage := decide (page > 1) } }

/-- `DataService.findById` (lines 611-613): first entity whose `id`
property is strictly equal to the given string. -/
def findById (data : List Entity) (id : String) : Option Entity :=
  data.find? fun item => getField item "id" == Value.vStr id

/-- `DataService.findBy` (lines 619-621): all entities whose named
attribute is strictly equal to the given value. -/
def findBy (data : List Entity) (f : String) (v : Value) : List Entity :=
  data.filter fun item => getField item f == v

/-- `DataService.count` (lines 714-716). -/
def count (data : List Entity) : Nat :=
  data.length

/-! ### Operation traces

The engine's state is its private array `data`.  `add` pushes, `clear`
replaces it with `[]`, and every query method only reads it (`search`
copies the array with `[...this.data]` before filtering and sorts the
copy, so the stored sequence is untouched). -/

/-- One public `DataService` call. -/
inductive EngineOp where
  | add (e : Entity)
  | clear
  | search (ps : SearchParameters)
  | findById (id : String)
  | findAll
  | findBy (f : String) (v : Value)
  | count
deriving DecidableEq

/-- Effect of one call on the stored sequence, translated method by
method from Dashboard.tsx lines 604-720. -/
def stepData (data : List Entity) : EngineOp → List Entity
  | EngineOp.add e => data ++ [e]
  | EngineOp.clear => []
  | EngineOp.search _ => data
  | EngineOp.findById _ => data
  | EngineOp.findAll => data
  | EngineOp.findBy _ _ => data
  | EngineOp.count => data

/-- State after an interleaving of calls, from a fresh service
(`private data: T[] = []`). -/
def runOps (ops : List EngineOp) : List Entity :=
  ops.foldl stepData []

/-- Number of `add` calls since the most recent `clear` (or since
construction when no `clear` occurred). -/
def addsSinceClear (ops : List EngineOp) : Nat :=
  ops.foldl
    (fun n op =>
      match op with
      | EngineOp.add _ => n + 1
      | EngineOp.clear => 0
      | _ => n)
    0

/-! ### Aliasing model for `findAll`

`findAll` returns `[...this.data]`.  To talk about caller-side mutation
the arrays and the entities live in explicit heaps: an array is a list of
entity references, the engine holds a reference to its own array, and
`findAll` allocates a fresh array holding the same entity references. -/

/-- Heap-and-engine world: an array heap, an entity heap and the
reference of the engine's private `data` array. -/
structure HeapWorld where
  arrays : List (List Nat)
  ents : List Entity
  engineArr : Nat
deriving DecidableEq

/-- Contents of the array at reference `r`. -/
def arrGet (w : HeapWorld) (r : Nat) : List Nat :=
  w.arrays.getD r []

/-- The entity sequence the engine observes (dereferencing its own
array); every query method reads exactly this. -/
def obsData (w : HeapWorld) : List Entity :=
  (arrGet w w.engineArr).map fun r => w.ents.getD r []

/-- `findAll` in the aliasing model: allocate a fresh array with the same
entity references and hand its reference to the caller. -/
def findAllAlloc (w : HeapWorld) : HeapWorld × Nat :=
  ({ w with arrays := w.arrays ++ [arrGet w w.engineArr] }, w.arrays.length)

/-- Caller-side mutation of an array object (index assignment, `push`,
`splice`, ...): the array at `r` becomes `l`. -/
def arrayWrite (w : HeapWorld) (r : Nat) (l : List Nat) : HeapWorld :=
  { w with arrays := w.arrays.set r l }

/-- Caller-side mutation of an entity object reachable through a
reference (e.g. adding a property via the open index signature). -/
def entWrite (w : HeapWorld) (r : Nat) (e : Entity) : HeapWorld :=
  { w with ents := w.ents.set r e }

/-! ### Order-number generation

`OrderClass.generateOrderNumber` (Dashboard.tsx lines 548-553):

* `Date.now().toString().slice(-8)` — the time input is the epoch
  millisecond count, a natural number;
* `Math.random().toString(36).substring(2, 6).toUpperCase()` — the
  random draw is a dyadic rational in `[0, 1)`; its contribution is
  fully described by the base-36 fractional digits that `toString(36)`
  prints (`[]` for the draw `0`), which is how the randomness input is
  passed here. -/

/-- Decimal digits of `n`, most significant first (structural fuel makes
kernel evaluation possible; the fuel `n + 1` always suffices because the
argument shrinks at every step). -/
def natDecDigitsAux : Nat → Nat → List Nat
  | 0, _ => []
  | fuel + 1, n => if n < 10 then [n] else natDecDigitsAux fuel (n / 10) ++ [n % 10]

/-- Decimal digits of `n`, most significant first. -/
def natDecDigits (n : Nat) : List Nat :=
  natDecDigitsAux (n + 1) n

/-- `Number.prototype.toString()` on a nonnegative integer. -/
def natToString (n : Nat) : String :=
  ⟨(natDecDigits n).map fun d => Char.ofNat (48 + d)⟩

/-- `String.prototype.slice(-k)`: the last `k` characters (the whole
string when it is shorter). -/
def strSliceLast (s : String) (k : Nat) : String :=
  ⟨s.data.drop (s.data.length - k)⟩

/-- Base-36 digit character: `0`-`9` then `a`-`z`. -/
def digitChar36 (d : Nat) : Char :=
  if d < 10 then Char.ofNat (48 + d) else Char.ofNat (87 + d)

/-- `Number.prototype.toString(36)` on a value in `[0, 1)` described by
its printed base-36 fractional digits: `0` prints as `"0"`, anything
else as `"0."` followed by the digits. -/
def randToString36 (ds : List Nat) : String :=
  if ds = [] then "0" else ⟨'0' :: '.' :: ds.map digitChar36⟩

/-- `String.prototype.substring(a, b)` for `a ≤ b` (indices clamped to
the string length). -/
def jsSubstring (s : String) (a b : Nat) : String :=
  ⟨(s.data.take b).drop a⟩

/-- `OrderClass.generateOrderNumber`, over the time input `now`
(epoch milliseconds) and the random draw's printed base-36 fractional
digits `ds`. -/
def generateOrderNumber (now : Nat) (ds : List Nat) : String :=
  let timestamp := strSliceLast (natToString now) 8
  let random := strUpper (jsSubstring (randToString36 ds) 2 6)
  "ORD" ++ "-" ++ timestamp ++ "-" ++ random

/-- Decidable check of the documented format `PREFIX-########-XXXX`:
the literal prefix `ORD`, a hyphen, exactly 8 decimal digits, a hyphen,
and exactly 4 uppercase alphanumeric characters. -/
def isOrderFormat (s : String) : Bool :=
  (s.data.length == 17)
    && (s.data.take 4 == "ORD-".data)
    && ((s.data.drop 4).take 8).all (fun c => decide (48 ≤ c.toNat) && decide (c.toNat ≤ 57))
    && ((s.data.drop 12).take 1 == ['-'])
    && (s.data.drop 13).all fun c =>
      (decide (48 ≤ c.toNat) && decide (c.toNat ≤ 57))
        || (decide (65 ≤ c.toNat) && decide (c.toNat ≤ 90))

/-! ## Bridging lemmas -/

theorem prefAt_iff : ∀ (p s : List Char), prefAt p s = true ↔ p <+: s
  | [], s => by simp [prefAt]
  | a :: as, [] => by simp [prefAt]
  | a :: as, b :: bs => by
    have ih := prefAt_iff as bs
    simp [prefAt, Bool.and_eq_true, beq_iff_eq, ih, List.cons_prefix_cons]

theorem inclAt_iff (p : List Char) : ∀ s : List Char, inclAt p s = true ↔ p <:+: s
  | [] => by simp [inclAt, prefAt_iff]
  | c :: t => by
    have ih := inclAt_iff p t
    simp [inclAt, prefAt_iff, ih, List.infix_cons_iff]

theorem sufAt_iff (p s : List Char) : sufAt p s = true ↔ p <:+ s := by
  rw [sufAt, prefAt_iff]
  exact List.reverse_prefix

theorem applyFilter_equals_eq (e : Entity) (fc : FilterCriteria) (h : fc.operator = "EQUALS") :
    applyFilter e fc = (getField e fc.field == fc.value) := by
  simp [applyFilter, h]

theorem applyFilter_contains_eq (e : Entity) (fc : FilterCriteria) (h : fc.operator = "CONTAINS") :
    applyFilter e fc =
      match getField e fc.field, fc.value with
      | Value.vStr s, Value.vStr t => inclAt (strLower t).data (strLower s).data
      | _, _ => false := by
  simp [applyFilter, h]

theorem applyFilter_starts_eq (e : Entity) (fc : FilterCriteria) (h : fc.operator = "STARTS_WITH") :
    applyFilter e fc =
      match getField e fc.field, fc.value with
      | Value.vStr s, Value.vStr t => prefAt (strLower t).data (strLower s).data
      | _, _ => false := by
  simp [applyFilter, h]

theorem applyFilter_ends_eq (e : Entity) (fc : FilterCriteria) (h : fc.operator = "ENDS_WITH") :
    applyFilter e fc =
      match getField e fc.field, fc.value with
      | Value.vStr s, Value.vStr t => sufAt (strLower t).data (strLower s).data
      | _, _ => false := by
  simp [applyFilter, h]

theorem applyFilter_gt_eq (e : Entity) (fc : FilterCriteria) (h : fc.operator = "GREATER_THAN") :
    applyFilter e fc = jsLt fc.value (getField e fc.field) := by
  simp [applyFilter, h]

theorem applyFilter_lt_eq (e : Entity) (fc : FilterCriteria) (h : fc.operator = "LESS_THAN") :
    applyFilter e fc = jsLt (getField e fc.field) fc.value := by
  simp [applyFilter, h]

theorem applyFilter_default_eq (e : Entity) (fc : FilterCriteria)
    (h1 : fc.operator ≠ "EQUALS") (h2 : fc.operator ≠ "CONTAINS")
    (h3 : fc.operator ≠ "STARTS_WITH") (h4 : fc.operator ≠ "ENDS_WITH")
    (h5 : fc.operator ≠ "GREATER_THAN") (h6 : fc.operator ≠ "LESS_THAN") :
    applyFilter e fc = false := by
  simp [applyFilter, h1, h2, h3, h4, h5, h6]

theorem jsLt_undef_right (v : Value) : jsLt v Value.vUndef = false := by
  cases v with
  | vStr s => cases hs : strToNum s <;> simp [jsLt, toNum, hs]
  | vNum n => rfl
  | vBool b => cases b <;> rfl
  | vUndef => rfl

theorem jsLt_undef_left (v : Value) : jsLt Value.vUndef v = false := by
  cases v with
  | vStr s => cases hs : strToNum s <;> simp [jsLt, toNum, hs]
  | vNum n => rfl
  | vBool b => cases b <;> rfl
  | vUndef => rfl

/-! ## Claim theorems -/

/-- Claim C10: every `search` call returns `success = true` with no error
field, and the metadata echoes the request verbatim — `currentPage` is the
requested page (default 1) and `itemsPerPage` the requested limit
(default 10), unmodified and unclamped, for every collection state and
every parameter combination, including out-of-range pages and empty
collections. -/
theorem c10_search_always_succeeds_and_echoes (data : List Entity) (ps : SearchParameters) :
    (search data ps).success = true ∧
    (search data ps).error = none ∧
    (search data ps).meta.currentPage = ps.page.getD 1 ∧
    (search data ps).meta.itemsPerPage = ps.limit.getD 10 :=
  ⟨rfl, rfl, rfl, rfl⟩

/-- Claim C8: the stored sequence is changed only by `add` and `clear`:
after any interleaving of operations, `count()` equals the number of
`add` calls since the most recent `clear` (or since construction), and
`search`, `findById`, `findAll` and `findBy` leave the stored sequence
and its order untouched. -/
theorem c8_state_mutated_only_by_add_clear :
    (∀ ops : List EngineOp, count (runOps ops) = addsSinceClear ops) ∧
    (∀ (data : List Entity) (ps : SearchParameters), stepData data (EngineOp.search ps) = data) ∧
    (∀ (data : List Entity) (id : String), stepData data (EngineOp.findById id) = data) ∧
    (∀ data : List Entity, stepData data EngineOp.findAll = data) ∧
    (∀ (data : List Entity) (f : String) (v : Value), stepData data (EngineOp.findBy f v) = data) := by
  refine ⟨?_, fun _ _ => rfl, fun _ _ => rfl, fun _ => rfl, fun _ _ _ => rfl⟩
  have key : ∀ (ops : List EngineOp) (data : List Entity),
      (ops.foldl stepData data).length =
        ops.foldl
          (fun n op =>
            match op with
            | EngineOp.add _ => n + 1
            | EngineOp.clear => 0
            | _ => n)
          data.length := by
    intro ops
    induction ops with
    | nil => intro data; rfl
    | cons op rest ih =>
      intro data
      cases op <;> simp [List.foldl, stepData, ih]
  intro ops
  exact key ops []

/-- Claim C3: for every entity and structured filter, `CONTAINS`,
`STARTS_WITH` and `ENDS_WITH` match case-insensitively (substring,
leading block, trailing block of the lowered values) when both the
entity's field value and the filter value are strings; they evaluate to
`false` — never an error — when either operand is not a string; `EQUALS`
is strict equality with no type coercion; and any operator outside the
closed enumeration of the six `FilterOperator` values yields no match
(fails closed). -/
theorem c3_filter_operator_semantics :
    (∀ (e : Entity) (f t s : String),
      getField e f = Value.vStr s →
        (applyFilter e ⟨f, Value.vStr t, "CONTAINS"⟩ = true ↔
          (strLower t).data <:+: (strLower s).data)) ∧
    (∀ (e : Entity) (f t s : String),
      getField e f = Value.vStr s →
        (applyFilter e ⟨f, Value.vStr t, "STARTS_WITH"⟩ = true ↔
          (strLower t).data <+: (strLower s).data)) ∧
    (∀ (e : Entity) (f t s : String),
      getField e f = Value.vStr s →
        (applyFilter e ⟨f, Value.vStr t, "ENDS_WITH"⟩ = true ↔
          (strLower t).data <:+ (strLower s).data)) ∧
    (∀ (e : Entity) (fc : FilterCriteria),
      (fc.operator = "CONTAINS" ∨ fc.operator = "STARTS_WITH" ∨ fc.operator = "ENDS_WITH") →
      (isStr (getField e fc.field) = false ∨ isStr fc.value = false) →
      applyFilter e fc = false) ∧
    (∀ (e : Entity) (fc : FilterCriteria),
      fc.operator = "EQUALS" →
        (applyFilter e fc = true ↔ getField e fc.field = fc.value)) ∧
    (∀ (e : Entity) (fc : FilterCriteria),
      fc.operator ≠ "EQUALS" → fc.operator ≠ "CONTAINS" → fc.operator ≠ "STARTS_WITH" →
      fc.operator ≠ "ENDS_WITH" → fc.operator ≠ "GREATER_THAN" → fc.operator ≠ "LESS_THAN" →
      applyFilter e fc = false) := by
  refine ⟨?_, ?_, ?_, ?_, ?_, ?_⟩
  · intro e f t s hg
    rw [applyFilter_contains_eq _ _ rfl]
    show (match getField e f, Value.vStr t with
      | Value.vStr s, Value.vStr t => inclAt (strLower t).data (strLower s).data
      | _, _ => false) = true ↔ _
    rw [hg]
    exact inclAt_iff _ _
  · intro e f t s hg
    rw [applyFilter_starts_eq _ _ rfl]
    show (match getField e f, Value.vStr t with
      | Value.vStr s, Value.vStr t => prefAt (strLower t).data (strLower s).data
      | _, _ => false) = true ↔ _
    rw [hg]
    exact prefAt_iff _ _
  · intro e f t s hg
    rw [applyFilter_ends_eq _ _ rfl]
    show (match getField e f, Value.vStr t with
      | Value.vStr s, Value.vStr t => sufAt (strLower t).data (strLower s).data
      | _, _ => false) = true ↔ _
    rw [hg]
    exact sufAt_iff _ _
  · intro e fc hop hns
    rcases hop with h | h | h
    · rw [applyFilter_contains_eq _ _ h]
      cases hv : getField e fc.field <;> cases hw : fc.value <;>
        simp_all [isStr]
    · rw [applyFilter_starts_eq _ _ h]
      cases hv : getField e fc.field <;> cases hw : fc.value <;>
        simp_all [isStr]
    · rw [applyFilter_ends_eq _ _ h]
      cases hv : getField e fc.field <;> cases hw : fc.value <;>
        simp_all [isStr]
  · intro e fc h
    rw [applyFilter_equals_eq _ _ h]
    exact beq_iff_eq
  · intro e fc h1 h2 h3 h4 h5 h6
    exact applyFilter_default_eq e fc h1 h2 h3 h4 h5 h6

/-- Witness for C3 at concrete inputs: `CONTAINS "ali"` matches
`buyerName = "Alice"` case-insensitively, a `CONTAINS` against a numeric
field value is `false`, and an operator outside the enumeration is
`false`. -/
theorem c3_filter_operator_semantics_witness :
    applyFilter [("buyerName", Value.vStr "Alice")]
        ⟨"buyerName", Value.vStr "ali", "CONTAINS"⟩ = true ∧
    applyFilter [("status", Value.vNum 3)] ⟨"status", Value.vStr "a", "CONTAINS"⟩ = false ∧
    applyFilter [("x", Value.vStr "a")] ⟨"x", Value.vStr "a", "NOT_AN_OPERATOR"⟩ = false := by
  refine ⟨?_, ?_, ?_⟩
  · exact (c3_filter_operator_semantics.1 [("buyerName", Value.vStr "Alice")]
      "buyerName" "ali" "Alice" (by decide)).mpr (by decide)
  · exact c3_filter_operator_semantics.2.2.2.1 [("status", Value.vNum 3)]
      ⟨"status", Value.vStr "a", "CONTAINS"⟩ (Or.inl rfl) (Or.inl (by decide))
  · exact c3_filter_operator_semantics.2.2.2.2.2 [("x", Value.vStr "a")]
      ⟨"x", Value.vStr "a", "NOT_AN_OPERATOR"⟩ (by decide) (by decide) (by decide)
      (by decide) (by decide) (by decide)

/-- Claim C6 counterexample: the claim "a filter naming an attribute the
entity does not possess never matches, regardless of the operator and
the filter value" is false — the entity `{a: "x"}` does not possess the
field `b`, yet the filter `{field: b, operator: EQUALS, value:
undefined}` matches it, because `undefined === undefined`. -/
theorem c6_counterexample :
    ([("a", Value.vStr "x")] : Entity).lookup "b" = none ∧
    applyFilter [("a", Value.vStr "x")] ⟨"b", Value.vUndef, "EQUALS"⟩ = true := by
  decide

/-- Claim C6 (amended): a filter whose field names an attribute the
entity does not possess reads the value `undefined` and never matches —
and no error is raised — except in exactly one case: operator `EQUALS`
with the filter value itself `undefined`, where strict equality of
`undefined` with `undefined` yields a match. -/
theorem c6_absent_field_matches_iff_undef_equals (e : Entity) (fc : FilterCriteria)
    (h : e.lookup fc.field = none) :
    applyFilter e fc = (fc.operator == "EQUALS" && fc.value == Value.vUndef) := by
  have hg : getField e fc.field = Value.vUndef := by
    simp [getField, h]
  by_cases h1 : fc.operator = "EQUALS"
  · rw [applyFilter_equals_eq _ _ h1, hg, h1]
    cases fc.value <;> rfl
  · have hr : (fc.operator == "EQUALS" && fc.value == Value.vUndef) = false := by
      simp [h1]
    rw [hr]
    by_cases h2 : fc.operator = "CONTAINS"
    · rw [applyFilter_contains_eq _ _ h2, hg]
    by_cases h3 : fc.operator = "STARTS_WITH"
    · rw [applyFilter_starts_eq _ _ h3, hg]
    by_cases h4 : fc.operator = "ENDS_WITH"
    · rw [applyFilter_ends_eq _ _ h4, hg]
    by_cases h5 : fc.operator = "GREATER_THAN"
    · rw [applyFilter_gt_eq _ _ h5, hg]
      exact jsLt_undef_right _
    by_cases h6 : fc.operator = "LESS_THAN"
    · rw [applyFilter_lt_eq _ _ h6, hg]
      exact jsLt_undef_left _
    exact applyFilter_default_eq e fc h1 h2 h3 h4 h5 h6

/-- Witness for the amended C6 at concrete inputs: on the entity
`{a: "x"}` and the absent field `b`, a `CONTAINS` filter does not match
while an `EQUALS undefined` filter does. -/
theorem c6_absent_field_matches_iff_undef_equals_witness :
    applyFilter [("a", Value.vStr "x")] ⟨"b", Value.vStr "x", "CONTAINS"⟩ =
      ("CONTAINS" == "EQUALS" && Value.vStr "x" == Value.vUndef) ∧
    applyFilter [("a", Value.vStr "x")] ⟨"b", Value.vUndef, "EQUALS"⟩ =
      ("EQUALS" == "EQUALS" && Value.vUndef == Value.vUndef) :=
  ⟨c6_absent_field_matches_iff_undef_equals [("a", Value.vStr "x")]
      ⟨"b", Value.vStr "x", "CONTAINS"⟩ (by decide),
    c6_absent_field_matches_iff_undef_equals [("a", Value.vStr "x")]
      ⟨"b", Value.vUndef, "EQUALS"⟩ (by decide)⟩

theorem bool_eq_decide {b : Bool} {p : Prop} [Decidable p] (h : b = true ↔ p) : b = decide p := by
  by_cases hp : p
  · rw [decide_eq_true hp]
    exact h.mpr hp
  · rw [decide_eq_false hp]
    cases hb : b
    · rfl
    · exact absurd (h.mp hb) hp

/-- Claim C4: with a free-text query present, an entity is kept by the
free-text stage of `search` if and only if at least one of its own
attribute values is a string whose case-insensitive lowering contains the
lowered query as a contiguous substring; non-string attribute values
never contribute.  The hypothesis that every entity owns some
string-typed attribute reflects the `BaseEntity` shape (`id : string` is
always an own property); it matters only for the empty query, which
JavaScript truthiness makes the source skip entirely. -/
theorem c4_text_query_semantics (data : List Entity) (q : String)
    (fs : Option (List FilterCriteria)) (sb : Option String) (so : Option SortOrder)
    (pg : Option Int) (L : Option Nat)
    (hstr : ∀ e ∈ data, hasStringVal e = true) :
    textFiltered ⟨some q, fs, sb, so, pg, L⟩ data =
      data.filter fun e =>
        decide (∃ v ∈ entityValues e, isStr v = true ∧
          (strLower q).data <:+: (strLower (strVal v)).data) := by
  by_cases hq : q = ""
  · subst hq
    show (if ("" : String) = "" then data else data.filter (textMatch (strLower ""))) = _
    rw [if_pos rfl]
    refine (List.filter_eq_self.mpr ?_).symm
    intro e he
    rcases List.any_eq_true.mp (hstr e he) with ⟨v, hv, hsv⟩
    cases v with
    | vStr s =>
      exact decide_eq_true ⟨Value.vStr s, hv, rfl, [], (strLower s).data, rfl⟩
    | vNum n => exact absurd hsv (by simp [isStr])
    | vBool b => exact absurd hsv (by simp [isStr])
    | vUndef => exact absurd hsv (by simp [isStr])
  · show (if q = "" then data else data.filter (textMatch (strLower q))) = _
    rw [if_neg hq]
    apply List.filter_congr
    intro e _
    apply bool_eq_decide
    constructor
    · intro hm
      rcases List.any_eq_true.mp hm with ⟨v, hv, hpv⟩
      cases v with
      | vStr s => exact ⟨Value.vStr s, hv, rfl, (inclAt_iff _ _).mp hpv⟩
      | vNum n => exact absurd hpv (by simp)
      | vBool b => exact absurd hpv (by simp)
      | vUndef => exact absurd hpv (by simp)
    · rintro ⟨v, hv, hs, hinf⟩
      cases v with
      | vStr s => exact List.any_eq_true.mpr ⟨Value.vStr s, hv, (inclAt_iff _ _).mpr hinf⟩
      | vNum n => exact absurd hs (by simp [isStr])
      | vBool b => exact absurd hs (by simp [isStr])
      | vUndef => exact absurd hs (by simp [isStr])

/-- Witness for C4 at a concrete input: one order entity with a string
`id` and `buyerName = "Alice"`, query `"LIC"`. -/
theorem c4_text_query_semantics_witness :
    textFiltered ⟨some "LIC", none, none, none, none, none⟩
        [[("id", Value.vStr "u1"), ("buyerName", Value.vStr "Alice")]] =
      [[("id", Value.vStr "u1"), ("buyerName", Value.vStr "Alice")]].filter fun e =>
        decide (∃ v ∈ entityValues e, isStr v = true ∧
          (strLower "LIC").data <:+: (strLower (strVal v)).data) :=
  c4_text_query_semantics [[("id", Value.vStr "u1"), ("buyerName", Value.vStr "Alice")]]
    "LIC" none none none none none (by decide)

theorem candidateList_length (ps : SearchParameters) (data : List Entity) :
    (candidateList ps data).length = (structFiltered ps (textFiltered ps data)).length := by
  unfold candidateList sortedStage
  cases ps.sortBy with
  | none => rfl
  | some sb =>
    by_cases h : sb = "" <;> simp [h, jsSort]

theorem totalPagesCalc_bounds (n L : Nat) (hL : 1 ≤ L) :
    n ≤ L * totalPagesCalc n L ∧ L * totalPagesCalc n L < n + L := by
  have h1 : L * ((n + L - 1) / L) + (n + L - 1) % L = n + L - 1 := Nat.div_add_mod _ _
  have h2 : (n + L - 1) % L < L := Nat.mod_lt _ (by omega)
  unfold totalPagesCalc
  generalize hA : L * ((n + L - 1) / L) = A at h1 ⊢
  generalize hB : (n + L - 1) % L = B at h1 h2
  omega

theorem search_data_eq (data : List Entity) (ps : SearchParameters) :
    (search data ps).data =
      jsSlice (candidateList ps data) ((ps.page.getD 1 - 1) * (ps.limit.getD 10 : Nat))
        ((ps.page.getD 1 - 1) * (ps.limit.getD 10 : Nat) + (ps.limit.getD 10 : Nat)) := rfl

theorem search_totalItems_eq (data : List Entity) (ps : SearchParameters) :
    (search data ps).meta.totalItems = (candidateList ps data).length := rfl

theorem search_totalPages_eq (data : List Entity) (ps : SearchParameters) :
    (search data ps).meta.totalPages =
      totalPagesCalc (candidateList ps data).length (ps.limit.getD 10) := rfl

theorem search_hasNext_eq (data : List Entity) (ps : SearchParameters) :
    (search data ps).meta.hasNextPage =
      decide (ps.page.getD 1 <
        ((totalPagesCalc (candidateList ps data).length (ps.limit.getD 10) : Nat) : Int)) := rfl

theorem search_hasPrev_eq (data : List Entity) (ps : SearchParameters) :
    (search data ps).meta.hasPreviousPage = decide (ps.page.getD 1 > 1) := rfl

theorem jsSlice_nil_of_ge (l : List α) (a b : Int) (h : (l.length : Int) ≤ a) :
    jsSlice l a b = [] := by
  unfold jsSlice sliceIdx
  have ha : ¬ a < 0 := by omega
  rw [if_neg ha]
  have h2 : l.length ≤ a.toNat := by omega
  rw [Nat.min_eq_right h2]
  exact List.drop_eq_nil_of_le (by simp)

/-- Claim C2 (amended): for every search call with a positive limit
(the default is 10) the metadata is correct — `totalItems` is the number
of entities remaining after the free-text and structured filters
(pre-pagination), `totalPages` is the ceiling of `totalItems / limit`
(characterised by `totalItems ≤ limit * totalPages < totalItems +
limit`), `hasNextPage` holds iff `currentPage < totalPages`, and
`hasPreviousPage` holds iff `currentPage > 1` — and for every page
GREATER THAN `totalPages` no error is raised, the slice is empty and
`hasNextPage` is false.  (The original claim's "every out-of-range page"
also covered pages below 1, where JavaScript's negative `slice` indices
take over: page 0 yields an empty slice with `hasNextPage = true`, and
negative pages can yield a non-empty slice; see the counterexample.) -/
theorem c2_pagination_metadata (data : List Entity) (ps : SearchParameters)
    (hL : 1 ≤ ps.limit.getD 10) :
    (search data ps).success = true ∧
    (search data ps).error = none ∧
    (search data ps).meta.totalItems = (structFiltered ps (textFiltered ps data)).length ∧
    (search data ps).meta.totalItems ≤ ps.limit.getD 10 * (search data ps).meta.totalPages ∧
    ps.limit.getD 10 * (search data ps).meta.totalPages <
      (search data ps).meta.totalItems + ps.limit.getD 10 ∧
    ((search data ps).meta.hasNextPage = true ↔
      ps.page.getD 1 < ((search data ps).meta.totalPages : Int)) ∧
    ((search data ps).meta.hasPreviousPage = true ↔ 1 < ps.page.getD 1) ∧
    (((search data ps).meta.totalPages : Int) < ps.page.getD 1 →
      (search data ps).data = [] ∧ (search data ps).meta.hasNextPage = false) := by
  have hb := totalPagesCalc_bounds (candidateList ps data).length (ps.limit.getD 10) hL
  refine ⟨rfl, rfl, ?_, ?_, ?_, ?_, ?_, ?_⟩
  · rw [search_totalItems_eq]
    exact candidateList_length ps data
  · rw [search_totalItems_eq, search_totalPages_eq]
    exact hb.1
  · rw [search_totalItems_eq, search_totalPages_eq]
    exact hb.2
  · rw [search_hasNext_eq, search_totalPages_eq]
    simp
  · rw [search_hasPrev_eq]
    simp
  · intro hgt
    rw [search_totalPages_eq] at hgt
    constructor
    · rw [search_data_eq]
      apply jsSlice_nil_of_ge
      have h1 : ((candidateList ps data).length : Int) ≤
          (ps.limit.getD 10 : Int) * (totalPagesCalc (candidateList ps data).length (ps.limit.getD 10) : Int) := by
        exact_mod_cast hb.1
      have h2 : (totalPagesCalc (candidateList ps data).length (ps.limit.getD 10) : Int) ≤
          ps.page.getD 1 - 1 := by omega
      have h3 : (ps.limit.getD 10 : Int) *
            (totalPagesCalc (candidateList ps data).length (ps.limit.getD 10) : Int) ≤
          (ps.limit.getD 10 : Int) * (ps.page.getD 1 - 1) := by
        exact Nat.cast_nonneg (ps.limit.getD 10) |>.trans_eq rfl |> fun hnn =>
          mul_le_mul_of_nonneg_left h2 hnn
      calc ((candidateList ps data).length : Int)
          ≤ (ps.limit.getD 10 : Int) *
              (totalPagesCalc (candidateList ps data).length (ps.limit.getD 10) : Int) := h1
        _ ≤ (ps.limit.getD 10 : Int) * (ps.page.getD 1 - 1) := h3
        _ = (ps.page.getD 1 - 1) * (ps.limit.getD 10 : Int) := mul_comm _ _
    · rw [search_hasNext_eq]
      simp only [decide_eq_false_iff_not, not_lt]
      omega

/-- Claim C2 counterexample: with pages below 1 the claim's
"out-of-range pages return an empty slice and `hasNextPage` is false"
fails — page 0 (out of the 1-indexed range) on a 1-entity collection
yields an empty slice but `hasNextPage = true`, and page `-1` on a
25-entity collection with limit 10 returns a full 10-entity slice via
JavaScript's negative slice indices. -/
theorem c2_pagination_counterexample :
    (search [[("id", Value.vStr "a")]] ⟨none, none, none, none, some 0, some 10⟩).data = [] ∧
    (search [[("id", Value.vStr "a")]]
        ⟨none, none, none, none, some 0, some 10⟩).meta.totalPages = 1 ∧
    (search [[("id", Value.vStr "a")]]
        ⟨none, none, none, none, some 0, some 10⟩).meta.hasNextPage = true ∧
    (search (List.replicate 25 [("id", Value.vStr "x")])
        ⟨none, none, none, none, some (-1), some 10⟩).data.length = 10 := by
  decide

/-- Witness for the amended C2 at the spec's example: 25 entities,
limit 10, page 3 — 5 entities returned, `totalPages = 3`,
`hasNextPage = false`, `hasPreviousPage = true` — together with the
amended theorem applied at that input. -/
theorem c2_pagination_metadata_witness :
    ((search (List.replicate 25 [("id", Value.vStr "x")])
        ⟨none, none, none, none, some 3, some 10⟩).data.length = 5 ∧
      (search (List.replicate 25 [("id", Value.vStr "x")])
        ⟨none, none, none, none, some 3, some 10⟩).meta.totalPages = 3 ∧
      (search (List.replicate 25 [("id", Value.vStr "x")])
        ⟨none, none, none, none, some 3, some 10⟩).meta.hasNextPage = false ∧
      (search (List.replicate 25 [("id", Value.vStr "x")])
        ⟨none, none, none, none, some 3, some 10⟩).meta.hasPreviousPage = true) ∧
    1 ≤ ((⟨none, none, none, none, some 3, some 10⟩ : SearchParameters)).limit.getD 10 ∧
    ((search (List.replicate 25 [("id", Value.vStr "x")])
        (⟨none, none, none, none, some 3, some 10⟩ : SearchParameters)).success = true ∧
      (search (List.replicate 25 [("id", Value.vStr "x")])
        (⟨none, none, none, none, some 3, some 10⟩ : SearchParameters)).error = none ∧
      (search (List.replicate 25 [("id", Value.vStr "x")])
          (⟨none, none, none, none, some 3, some 10⟩ : SearchParameters)).meta.totalItems =
        (structFiltered ⟨none, none, none, none, some 3, some 10⟩
          (textFiltered ⟨none, none, none, none, some 3, some 10⟩
            (List.replicate 25 [("id", Value.vStr "x")]))).length ∧
      (search (List.replicate 25 [("id", Value.vStr "x")])
          (⟨none, none, none, none, some 3, some 10⟩ : SearchParameters)).meta.totalItems ≤
        ((⟨none, none, none, none, some 3, some 10⟩ : SearchParameters)).limit.getD 10 *
          (search (List.replicate 25 [("id", Value.vStr "x")])
            (⟨none, none, none, none, some 3, some 10⟩ : SearchParameters)).meta.totalPages ∧
      ((⟨none, none, none, none, some 3, some 10⟩ : SearchParameters)).limit.getD 10 *
          (search (List.replicate 25 [("id", Value.vStr "x")])
            (⟨none, none, none, none, some 3, some 10⟩ : SearchParameters)).meta.totalPages <
        (search (List.replicate 25 [("id", Value.vStr "x")])
            (⟨none, none, none, none, some 3, some 10⟩ : SearchParameters)).meta.totalItems +
          ((⟨none, none, none, none, some 3, some 10⟩ : SearchParameters)).limit.getD 10 ∧
      ((search (List.replicate 25 [("id", Value.vStr "x")])
          (⟨none, none, none, none, some 3, some 10⟩ : SearchParameters)).meta.hasNextPage = true ↔
        ((⟨none, none, none, none, some 3, some 10⟩ : SearchParameters)).page.getD 1 <
          ((search (List.replicate 25 [("id", Value.vStr "x")])
            (⟨none, none, none, none, some 3, some 10⟩ : SearchParameters)).meta.totalPages : Int)) ∧
      ((search (List.replicate 25 [("id", Value.vStr "x")])
          (⟨none, none, none, none, some 3, some 10⟩ : SearchParameters)).meta.hasPreviousPage = true ↔
        1 < ((⟨none, none, none, none, some 3, some 10⟩ : SearchParameters)).page.getD 1) ∧
      (((search (List.replicate 25 [("id", Value.vStr "x")])
            (⟨none, none, none, none, some 3, some 10⟩ : SearchParameters)).meta.totalPages : Int) <
          ((⟨none, none, none, none, some 3, some 10⟩ : SearchParameters)).page.getD 1 →
        (search (List.replicate 25 [("id", Value.vStr "x")])
            (⟨none, none, none, none, some 3, some 10⟩ : SearchParameters)).data = [] ∧
        (search (List.replicate 25 [("id", Value.vStr "x")])
          (⟨none, none, none, none, some 3, some 10⟩ : SearchParameters)).meta.hasNextPage = false)) :=
  ⟨by decide, by decide,
    c2_pagination_metadata (List.replicate 25 [("id", Value.vStr "x")])
      ⟨none, none, none, none, some 3, some 10⟩ (by decide)⟩

theorem totalPagesCalc_zero (k : Nat) (hk : 1 ≤ k) : totalPagesCalc 0 k = 0 := by
  unfold totalPagesCalc
  exact Nat.div_eq_of_lt (by omega)

theorem totalPagesCalc_succ (n k : Nat) (hn : 1 ≤ n) (hk : 1 ≤ k) :
    totalPagesCalc n k = totalPagesCalc (n - k) k + 1 := by
  unfold totalPagesCalc
  rcases le_total k n with h | h
  · have e1 : n + k - 1 = (n - k + k - 1) + k := by omega
    rw [e1, Nat.add_div_right _ (by omega)]
  · have e2 : n - k = 0 := by omega
    rw [e2]
    have e3 : (0 + k - 1) / k = 0 := Nat.div_eq_of_lt (by omega)
    rw [e3]
    exact Nat.div_eq_of_lt_le (by omega) (by omega)

theorem chunk_join_fuel (k : Nat) (hk : 1 ≤ k) :
    ∀ (n : Nat) (l : List α), l.length ≤ n →
      List.flatten ((List.range (totalPagesCalc l.length k)).map
        (fun i => (l.drop (i * k)).take k)) = l := by
  intro n
  induction n with
  | zero =>
    intro l hl
    have h0 : l = [] := List.eq_nil_of_length_eq_zero (by omega)
    subst h0
    simp [totalPagesCalc_zero k hk]
  | succ n ih =>
    intro l hl
    by_cases h0 : l = []
    · subst h0
      simp [totalPagesCalc_zero k hk]
    · have hlen : 1 ≤ l.length := List.length_pos.mpr h0
      rw [totalPagesCalc_succ l.length k hlen hk]
      have hdl : (l.drop k).length = l.length - k := by simp
      rw [List.range_succ_eq_map, List.map_cons, List.map_map, List.flatten_cons]
      have hfun : ∀ i ∈ List.range (totalPagesCalc (l.length - k) k),
          ((fun i => (l.drop (i * k)).take k) ∘ Nat.succ) i
            = (fun i => ((l.drop k).drop (i * k)).take k) i := by
        intro i _
        show (l.drop (Nat.succ i * k)).take k = ((l.drop k).drop (i * k)).take k
        rw [List.drop_drop]
        congr 2
        simp [Nat.succ_mul, Nat.mul_comm, Nat.add_comm]
      rw [List.map_congr_left hfun]
      have hrec := ih (l.drop k) (by simp; omega)
      rw [hdl] at hrec
      rw [hrec]
      simp

theorem chunk_join (k : Nat) (hk : 1 ≤ k) (l : List α) :
    List.flatten ((List.range (totalPagesCalc l.length k)).map
      (fun i => (l.drop (i * k)).take k)) = l :=
  chunk_join_fuel k hk l.length l (Nat.le_refl _)

theorem take_min (l : List α) (b : Nat) : l.take (min b l.length) = l.take b := by
  rcases le_total b l.length with h | h
  · rw [Nat.min_eq_left h]
  · rw [Nat.min_eq_right h, List.take_length, List.take_of_length_le h]

theorem drop_min_take (l : List α) (a b : Nat) :
    (l.take b).drop (min a l.length) = (l.take b).drop a := by
  rcases le_total a l.length with h | h
  · rw [Nat.min_eq_left h]
  · rw [Nat.min_eq_right h]
    have h1 : (l.take b).length ≤ l.length := by simp
    rw [List.drop_eq_nil_of_le h1, List.drop_eq_nil_of_le (h1.trans h)]

theorem jsSlice_nat (l : List α) (a b : Nat) :
    jsSlice l (a : Int) (b : Int) = (l.take b).drop a := by
  unfold jsSlice sliceIdx
  have ha : ¬ (a : Int) < 0 := by omega
  have hb : ¬ (b : Int) < 0 := by omega
  rw [if_neg ha, if_neg hb, Int.toNat_ofNat, Int.toNat_ofNat, take_min, drop_min_take]

/-- Claim C1: for every collection state and fixed query, filters,
sortBy, sortOrder and limit ≥ 1, concatenating the data arrays returned
by `search` for pages 1 through `meta.totalPages` reproduces the entire
filtered-and-sorted candidate set — every matching entity exactly once,
in order, no duplicates, no omissions. -/
theorem c1_pagination_round_trip (data : List Entity) (q : Option String)
    (fs : Option (List FilterCriteria)) (sb : Option String) (so : Option SortOrder)
    (L : Nat) (hL : 1 ≤ L) :
    List.flatten ((List.range
        (search data ⟨q, fs, sb, so, some 1, some L⟩).meta.totalPages).map
      (fun i : Nat =>
        (search data ⟨q, fs, sb, so, some ((i : Int) + 1), some L⟩).data)) =
    candidateList ⟨q, fs, sb, so, some 1, some L⟩ data := by
  have hpage : ∀ i : Nat,
      (search data ⟨q, fs, sb, so, some ((i : Int) + 1), some L⟩).data =
        ((candidateList ⟨q, fs, sb, so, some 1, some L⟩ data).drop (i * L)).take L := by
    intro i
    rw [search_data_eq]
    have hF : candidateList ⟨q, fs, sb, so, some ((i : Int) + 1), some L⟩ data =
        candidateList ⟨q, fs, sb, so, some 1, some L⟩ data := rfl
    rw [hF]
    have e1 : (((⟨q, fs, sb, so, some ((i : Int) + 1), some L⟩ :
          SearchParameters)).page.getD 1 - 1) *
        (((⟨q, fs, sb, so, some ((i : Int) + 1), some L⟩ :
          SearchParameters)).limit.getD 10 : Nat) = ((i * L : Nat) : Int) := by
      show ((i : Int) + 1 - 1) * (L : Nat) = ((i * L : Nat) : Int)
      push_cast
      ring
    rw [e1]
    have e2 : ((i * L : Nat) : Int) + (((⟨q, fs, sb, so, some ((i : Int) + 1), some L⟩ :
          SearchParameters)).limit.getD 10 : Nat) = ((i * L + L : Nat) : Int) := by
      show ((i * L : Nat) : Int) + ((L : Nat) : Int) = ((i * L + L : Nat) : Int)
      push_cast
      ring
    rw [e2, jsSlice_nat, List.take_drop]
  rw [List.map_congr_left fun i _ => hpage i]
  rw [search_totalPages_eq]
  exact chunk_join L hL (candidateList ⟨q, fs, sb, so, some 1, some L⟩ data)

/-- Witness for C1 at a concrete input: 5 entities, limit 2 (3 pages),
no query, filters or sort. -/
theorem c1_pagination_round_trip_witness :
    1 ≤ 2 ∧
    List.flatten ((List.range
        (search (List.replicate 5 [("id", Value.vStr "x")])
          ⟨none, none, none, none, some 1, some 2⟩).meta.totalPages).map
      (fun i : Nat => (search (List.replicate 5 [("id", Value.vStr "x")])
        ⟨none, none, none, none, some ((i : Int) + 1), some 2⟩).data)) =
    candidateList ⟨none, none, none, none, some 1, some 2⟩
      (List.replicate 5 [("id", Value.vStr "x")]) :=
  ⟨by decide,
    c1_pagination_round_trip (List.replicate 5 [("id", Value.vStr "x")])
      none none none none 2 (by decide)⟩

theorem listStrLt_asymm : ∀ s t : List Char, listStrLt s t = true → listStrLt t s = false := by
  intro s
  induction s with
  | nil =>
    intro t h
    cases t with
    | nil => simp [listStrLt] at h
    | cons b bs => rfl
  | cons a as ih =>
    intro t h
    cases t with
    | nil => simp [listStrLt] at h
    | cons b bs =>
      by_cases h1 : a.toNat < b.toNat
      · have h2 : ¬ b.toNat < a.toNat := by omega
        simp [listStrLt, h1, h2]
      · by_cases h2 : b.toNat < a.toNat
        · simp [listStrLt, h1, h2] at h
        · simp [listStrLt, h1, h2] at h ⊢
          exact ih bs h

theorem jsLt_asymm (a b : Value) (h : jsLt a b = true) : jsLt b a = false := by
  cases a with
  | vStr s =>
    cases b with
    | vStr t => exact listStrLt_asymm _ _ h
    | vNum n =>
      cases hx : strToNum s with
      | none => simp [jsLt, toNum, hx] at h
      | some x =>
        simp [jsLt, toNum, hx] at h ⊢
        omega
    | vBool c =>
      cases c <;> cases hx : strToNum s with
      | none => simp [jsLt, toNum, hx] at h
      | some x =>
        simp [jsLt, toNum, hx] at h ⊢
        omega
    | vUndef => simp [jsLt, toNum] at h
  | vNum n =>
    cases b with
    | vStr t =>
      cases hx : strToNum t with
      | none => simp [jsLt, toNum, hx] at h
      | some x =>
        simp [jsLt, toNum, hx] at h ⊢
        omega
    | vNum m =>
      simp [jsLt, toNum] at h ⊢
      omega
    | vBool c =>
      cases c <;> simp [jsLt, toNum] at h ⊢ <;> omega
    | vUndef => simp [jsLt, toNum] at h
  | vBool c =>
    cases b with
    | vStr t =>
      cases c <;> cases hx : strToNum t with
      | none => simp [jsLt, toNum, hx] at h
      | some x =>
        simp [jsLt, toNum, hx] at h ⊢
        omega
    | vNum m =>
      cases c <;> simp [jsLt, toNum] at h ⊢ <;> omega
    | vBool d =>
      cases c <;> cases d <;> simp [jsLt, toNum] at h ⊢
    | vUndef => cases c <;> simp [jsLt, toNum] at h
  | vUndef =>
    cases b <;> simp [jsLt, toNum] at h

theorem searchCmp_antisymm (sb : String) (so : Option SortOrder) (a b : Entity) :
    searchCmp sb so b a = - searchCmp sb so a b := by
  unfold searchCmp
  by_cases h1 : jsLt (getField a sb) (getField b sb) = true
  · have h2 : jsLt (getField b sb) (getField a sb) = false := jsLt_asymm _ _ h1
    simp only [h1, h2]
    cases h : (so == some SortOrder.desc) <;> simp [h]
  · have h1f : jsLt (getField a sb) (getField b sb) = false := by
      cases hx : jsLt (getField a sb) (getField b sb)
      · rfl
      · exact absurd hx h1
    by_cases h2 : jsLt (getField b sb) (getField a sb) = true
    · simp only [h1f, h2]
      cases h : (so == some SortOrder.desc) <;> simp [h]
    · have h2f : jsLt (getField b sb) (getField a sb) = false := by
        cases hx : jsLt (getField b sb) (getField a sb)
        · rfl
        · exact absurd hx h2
      simp [h1f, h2f]

theorem leOf_total (sb : String) (so : Option SortOrder) (a b : Entity) :
    (leOf (searchCmp sb so) a b || leOf (searchCmp sb so) b a) = true := by
  by_cases h : searchCmp sb so a b ≤ 0
  · simp [leOf, h]
  · have h2 := searchCmp_antisymm sb so a b
    have h3 : searchCmp sb so b a ≤ 0 := by omega
    simp [leOf, h3]

theorem searchCmp_absent (sb : String) (so : Option SortOrder) (a b : Entity)
    (h : a.lookup sb = none ∨ b.lookup sb = none) : searchCmp sb so a b = 0 := by
  unfold searchCmp
  rcases h with h | h
  · have hg : getField a sb = Value.vUndef := by simp [getField, h]
    simp [hg, jsLt_undef_left, jsLt_undef_right]
  · have hg : getField b sb = Value.vUndef := by simp [getField, h]
    simp [hg, jsLt_undef_left, jsLt_undef_right]

theorem searchCmp_desc_flip (sb : String) (a b : Entity) (so : Option SortOrder)
    (h : so ≠ some SortOrder.desc) :
    searchCmp sb (some SortOrder.desc) a b = - searchCmp sb so a b := by
  unfold searchCmp
  have hs : (so == some SortOrder.desc) = false := by
    simp [h]
  simp only [hs]
  by_cases h1 : jsLt (getField a sb) (getField b sb) = true <;>
    by_cases h2 : jsLt (getField b sb) (getField a sb) = true <;>
      simp [h1, h2]

/-- Claim C5 (amended): with `sortBy` present the candidate set is
sorted by that field's value (pairwise under the comparator), the sort
is a permutation, entities whose values compare equal preserve their
relative input order (stable sort), and descending reverses the outcome
of each pairwise comparison, not the post-sort sequence, so stability
holds in both directions (the statement covers every `sortOrder`) —
PROVIDED the comparator is transitive ("consistent" in the ECMAScript
sense) on the entities of the list, which holds in particular whenever
all sort-key values are present and of one primitive type.  The
comparator itself treats an absent value as equal to anything and never
crashes, and that is exactly what makes it inconsistent when absent and
present values are mixed: ECMAScript then leaves the sort order
implementation-defined, and stability can genuinely fail (see the
counterexample, where the claim's unconditional stability breaks). -/
theorem c5_sort_semantics (sb : String) (so : Option SortOrder) (l : List Entity)
    (htrans : ∀ a ∈ l, ∀ b ∈ l, ∀ c ∈ l,
      leOf (searchCmp sb so) a b = true → leOf (searchCmp sb so) b c = true →
      leOf (searchCmp sb so) a c = true) :
    (jsSort (searchCmp sb so) l).Perm l ∧
    (jsSort (searchCmp sb so) l).Pairwise (fun a b => searchCmp sb so a b ≤ 0) ∧
    (∀ a b : Entity, List.Sublist [a, b] l → searchCmp sb so a b = 0 →
      List.Sublist [a, b] (jsSort (searchCmp sb so) l)) ∧
    (∀ a b : Entity, a.lookup sb = none ∨ b.lookup sb = none → searchCmp sb so a b = 0) ∧
    (∀ (so' : Option SortOrder) (a b : Entity), so' ≠ some SortOrder.desc →
      searchCmp sb (some SortOrder.desc) a b = - searchCmp sb so' a b) := by
  have htr : ∀ a b c : {x // x ∈ l},
      leOf (searchCmp sb so) a.val b.val = true →
      leOf (searchCmp sb so) b.val c.val = true →
      leOf (searchCmp sb so) a.val c.val = true :=
    fun a b c hab hbc =>
      htrans a.val a.property b.val b.property c.val c.property hab hbc
  have htot2 : ∀ a b : {x // x ∈ l},
      (leOf (searchCmp sb so) a.val b.val || leOf (searchCmp sb so) b.val a.val) = true :=
    fun a b => leOf_total sb so a.val b.val
  have hmap1 := @List.map_mergeSort {x // x ∈ l} Entity
    (fun u v : {x // x ∈ l} => leOf (searchCmp sb so) u.val v.val)
    (leOf (searchCmp sb so)) Subtype.val l.attach (fun a _ b _ => rfl)
  rw [List.attach_map_subtype_val] at hmap1
  refine ⟨List.mergeSort_perm l _, ?_, ?_, fun a b h => searchCmp_absent sb so a b h,
    fun so' a b h => searchCmp_desc_flip sb a b so' h⟩
  · show (l.mergeSort (leOf (searchCmp sb so))).Pairwise fun a b => searchCmp sb so a b ≤ 0
    rw [← hmap1]
    rw [List.pairwise_map]
    have hp := List.sorted_mergeSort htr htot2 l.attach
    refine hp.imp ?_
    intro a b hab
    exact of_decide_eq_true hab
  · intro a b hsub hcmp
    have hsub2 : List.Sublist [a, b] (l.attach.map Subtype.val) := by
      rw [List.attach_map_subtype_val]
      exact hsub
    rcases List.sublist_map_iff.mp hsub2 with ⟨l2, hl2, heq⟩
    rcases l2 with _ | ⟨a2, l3⟩
    · simp at heq
    rcases l3 with _ | ⟨b2, l4⟩
    · simp at heq
    rcases l4 with _ | ⟨c2, l5⟩
    · simp only [List.map_cons, List.map_nil, List.cons.injEq, and_true] at heq
      rcases heq with ⟨ha2, hb2⟩
      have hab : leOf (searchCmp sb so) a2.val b2.val = true := by
        rw [← ha2, ← hb2]
        exact decide_eq_true (by omega)
      have hst := List.pair_sublist_mergeSort htr htot2 hab hl2
      have hst2 := hst.map Subtype.val
      rw [hmap1] at hst2
      show List.Sublist [a, b] (l.mergeSort (leOf (searchCmp sb so)))
      rw [ha2, hb2]
      exact hst2
    · simp at heq

/-- Witness for C5 at a concrete input: three orders with statuses
`PENDING`, `DELIVERED`, `SHIPPED` (all string keys, so the comparator is
consistent), sorted descending. -/
theorem c5_sort_semantics_witness :
    (∀ a ∈ [[("status", Value.vStr "PENDING")], [("status", Value.vStr "DELIVERED")],
        [("status", Value.vStr "SHIPPED")]],
      ∀ b ∈ [[("status", Value.vStr "PENDING")], [("status", Value.vStr "DELIVERED")],
        [("status", Value.vStr "SHIPPED")]],
      ∀ c ∈ [[("status", Value.vStr "PENDING")], [("status", Value.vStr "DELIVERED")],
        [("status", Value.vStr "SHIPPED")]],
      leOf (searchCmp "status" (some SortOrder.desc)) a b = true →
      leOf (searchCmp "status" (some SortOrder.desc)) b c = true →
      leOf (searchCmp "status" (some SortOrder.desc)) a c = true) ∧
    ((jsSort (searchCmp "status" (some SortOrder.desc))
        [[("status", Value.vStr "PENDING")], [("status", Value.vStr "DELIVERED")],
          [("status", Value.vStr "SHIPPED")]]).Perm
      [[("status", Value.vStr "PENDING")], [("status", Value.vStr "DELIVERED")],
        [("status", Value.vStr "SHIPPED")]] ∧
    (jsSort (searchCmp "status" (some SortOrder.desc))
        [[("status", Value.vStr "PENDING")], [("status", Value.vStr "DELIVERED")],
          [("status", Value.vStr "SHIPPED")]]).Pairwise
      (fun a b => searchCmp "status" (some SortOrder.desc) a b ≤ 0) ∧
    (∀ a b : Entity,
      List.Sublist [a, b] [[("status", Value.vStr "PENDING")],
        [("status", Value.vStr "DELIVERED")], [("status", Value.vStr "SHIPPED")]] →
      searchCmp "status" (some SortOrder.desc) a b = 0 →
      List.Sublist [a, b] (jsSort (searchCmp "status" (some SortOrder.desc))
        [[("status", Value.vStr "PENDING")], [("status", Value.vStr "DELIVERED")],
          [("status", Value.vStr "SHIPPED")]])) ∧
    (∀ a b : Entity, a.lookup "status" = none ∨ b.lookup "status" = none →
      searchCmp "status" (some SortOrder.desc) a b = 0) ∧
    (∀ (so' : Option SortOrder) (a b : Entity), so' ≠ some SortOrder.desc →
      searchCmp "status" (some SortOrder.desc) a b = - searchCmp "status" so' a b)) :=
  ⟨by decide,
    c5_sort_semantics "status" (some SortOrder.desc)
      [[("status", Value.vStr "PENDING")], [("status", Value.vStr "DELIVERED")],
        [("status", Value.vStr "SHIPPED")]] (by decide)⟩

/-- Claim C7 counterexample: `findAll` returns `[...this.data]`, a
SHALLOW copy — the copy shares the entity objects.  In a world with one
order entity, the caller receives the fresh array, reaches entity
reference 0 through it, and rewrites that entity's `buyerName`; the
engine's subsequently observed sequence (what `findAll`, `search`,
`findById` read) changes, refuting "no mutation performed by the caller
through the returned value can change the engine's internal state as
observed by subsequent calls". -/
theorem c7_counterexample :
    0 ∈ arrGet (findAllAlloc ⟨[[0]], [[("buyerName", Value.vStr "Alice")]], 0⟩).1
        (findAllAlloc ⟨[[0]], [[("buyerName", Value.vStr "Alice")]], 0⟩).2 ∧
    obsData (entWrite (findAllAlloc ⟨[[0]], [[("buyerName", Value.vStr "Alice")]], 0⟩).1 0
        [("buyerName", Value.vStr "Bob")]) ≠
      obsData ⟨[[0]], [[("buyerName", Value.vStr "Alice")]], 0⟩ := by
  decide

/-- Claim C7 (amended): `findAll` hands out a fresh array object whose
contents equal the engine's sequence (a shallow copy): the returned
reference is distinct from the engine's array, allocating it does not
change what the engine observes, and any caller-side mutation of the
returned ARRAY (index assignment, push, splice, reordering — modelled as
replacing its contents arbitrarily) leaves the engine's observed
sequence, and hence `count`, `findAll`, `findById` and `search` results,
unchanged.  Only mutating a shared ENTITY object through the copy leaks
(see the counterexample). -/
theorem c7_shallow_copy (w : HeapWorld) (hlt : w.engineArr < w.arrays.length) :
    arrGet (findAllAlloc w).1 (findAllAlloc w).2 = arrGet w w.engineArr ∧
    (findAllAlloc w).2 ≠ w.engineArr ∧
    obsData (findAllAlloc w).1 = obsData w ∧
    (∀ newContents : List Nat,
      obsData (arrayWrite (findAllAlloc w).1 (findAllAlloc w).2 newContents) = obsData w) := by
  have harr : ∀ i, i < w.arrays.length →
      ∀ x, (w.arrays ++ [x]).getD i [] = w.arrays.getD i [] := by
    intro i hi x
    simp [List.getElem?_append_left hi]
  have hne : w.arrays.length ≠ w.engineArr := by omega
  refine ⟨?_, hne, ?_, ?_⟩
  · show (w.arrays ++ [arrGet w w.engineArr]).getD w.arrays.length [] = arrGet w w.engineArr
    simp [List.getElem?_concat_length]
  · show ((w.arrays ++ [arrGet w w.engineArr]).getD w.engineArr []).map _ = _
    rw [harr w.engineArr hlt]
    rfl
  · intro c
    show (((w.arrays ++ [arrGet w w.engineArr]).set w.arrays.length c).getD w.engineArr []).map
        (fun r => w.ents.getD r []) = obsData w
    have hset : ((w.arrays ++ [arrGet w w.engineArr]).set w.arrays.length c).getD
        w.engineArr [] = (w.arrays ++ [arrGet w w.engineArr]).getD w.engineArr [] := by
      simp [List.getElem?_set_ne hne, List.getElem?_append_left hlt]
    rw [hset, harr w.engineArr hlt]
    rfl

/-- Witness for the amended C7 at the concrete one-entity world of the
counterexample. -/
theorem c7_shallow_copy_witness :
    0 < ([[0]] : List (List Nat)).length ∧
    (arrGet (findAllAlloc ⟨[[0]], [[("buyerName", Value.vStr "Alice")]], 0⟩).1
        (findAllAlloc ⟨[[0]], [[("buyerName", Value.vStr "Alice")]], 0⟩).2 =
      arrGet ⟨[[0]], [[("buyerName", Value.vStr "Alice")]], 0⟩ 0 ∧
    (findAllAlloc ⟨[[0]], [[("buyerName", Value.vStr "Alice")]], 0⟩).2 ≠ 0 ∧
    obsData (findAllAlloc ⟨[[0]], [[("buyerName", Value.vStr "Alice")]], 0⟩).1 =
      obsData ⟨[[0]], [[("buyerName", Value.vStr "Alice")]], 0⟩ ∧
    (∀ newContents : List Nat,
      obsData (arrayWrite (findAllAlloc ⟨[[0]], [[("buyerName", Value.vStr "Alice")]], 0⟩).1
          (findAllAlloc ⟨[[0]], [[("buyerName", Value.vStr "Alice")]], 0⟩).2 newContents) =
        obsData ⟨[[0]], [[("buyerName", Value.vStr "Alice")]], 0⟩)) :=
  ⟨by decide, c7_shallow_copy ⟨[[0]], [[("buyerName", Value.vStr "Alice")]], 0⟩ (by decide)⟩

theorem natDecDigitsAux_digits_lt :
    ∀ (fuel n : Nat), ∀ d ∈ natDecDigitsAux fuel n, d < 10 := by
  intro fuel
  induction fuel with
  | zero =>
    intro n d hd
    simp [natDecDigitsAux] at hd
  | succ fuel ih =>
    intro n d hd
    by_cases h : n < 10
    · simp [natDecDigitsAux, h] at hd
      omega
    · simp [natDecDigitsAux, h] at hd
      rcases hd with hd | hd
      · exact ih _ _ hd
      · have : n % 10 < 10 := Nat.mod_lt _ (by omega)
        omega

theorem natDecDigits_digits_lt (n : Nat) : ∀ d ∈ natDecDigits n, d < 10 :=
  natDecDigitsAux_digits_lt (n + 1) n

theorem natDecDigitsAux_len :
    ∀ (fuel n k : Nat), n < fuel → 10 ^ k ≤ n → k + 1 ≤ (natDecDigitsAux fuel n).length := by
  intro fuel
  induction fuel with
  | zero =>
    intro n k h1 h2
    omega
  | succ fuel ih =>
    intro n k h1 h2
    by_cases h : n < 10
    · have hk : k = 0 := by
        by_contra hk0
        have h10 : 10 ≤ 10 ^ k := by
          calc 10 = 10 ^ 1 := by norm_num
          _ ≤ 10 ^ k := Nat.pow_le_pow_right (by norm_num) (by omega)
        omega
      subst hk
      simp [natDecDigitsAux, h]
    · simp only [natDecDigitsAux, if_neg h, List.length_append, List.length_cons,
        List.length_nil]
      cases k with
      | zero => omega
      | succ j =>
        have hd : 10 ^ j ≤ n / 10 := by
          rw [Nat.le_div_iff_mul_le (by norm_num)]
          calc 10 ^ j * 10 = 10 ^ (j + 1) := by ring
          _ ≤ n := h2
        have hn : n / 10 < fuel := by
          have := Nat.div_lt_self (show 0 < n by omega) (show 1 < 10 by norm_num)
          omega
        have := ih (n / 10) j hn hd
        omega

theorem natDecDigits_len (n k : Nat) (h : 10 ^ k ≤ n) :
    k + 1 ≤ (natDecDigits n).length :=
  natDecDigitsAux_len (n + 1) n k (Nat.lt_succ_self n) h

theorem isOrderFormat_build (T S : List Char) (hT : T.length = 8) (hS : S.length = 4)
    (hTd : ∀ c ∈ T, 48 ≤ c.toNat ∧ c.toNat ≤ 57)
    (hSu : ∀ c ∈ S, (48 ≤ c.toNat ∧ c.toNat ≤ 57) ∨ (65 ≤ c.toNat ∧ c.toNat ≤ 90)) :
    isOrderFormat ⟨['O', 'R', 'D', '-'] ++ (T ++ '-' :: S)⟩ = true := by
  have e1 : (['O', 'R', 'D', '-'] ++ (T ++ '-' :: S)).length = 17 := by
    simp [hT, hS]
  have e2 : (['O', 'R', 'D', '-'] ++ (T ++ '-' :: S)).take 4 = ['O', 'R', 'D', '-'] :=
    List.take_left' rfl
  have e3 : (['O', 'R', 'D', '-'] ++ (T ++ '-' :: S)).drop 4 = T ++ '-' :: S :=
    List.drop_left' rfl
  have e4 : (T ++ '-' :: S).take 8 = T := List.take_left' hT
  have e5 : (T ++ '-' :: S).drop 8 = '-' :: S := List.drop_left' hT
  have e6 : (['O', 'R', 'D', '-'] ++ (T ++ '-' :: S)).drop 12 = '-' :: S := by
    rw [show (12 : Nat) = 4 + 8 from rfl, ← List.drop_drop, e3, e5]
  have e7 : (['O', 'R', 'D', '-'] ++ (T ++ '-' :: S)).drop 13 = S := by
    rw [show (13 : Nat) = 12 + 1 from rfl, ← List.drop_drop, e6]
    rfl
  unfold isOrderFormat
  simp only [e1, e2, e3, e4, e6, e7]
  simp only [Bool.and_eq_true, beq_iff_eq, List.all_eq_true]
  refine ⟨⟨⟨⟨trivial, by decide⟩, ?_⟩, ?_⟩, ?_⟩
  · intro c hc
    rcases hTd c hc with ⟨hc1, hc2⟩
    simp [hc1, hc2]
  · show List.take 1 ('-' :: S) = ['-']
    rfl
  · intro c hc
    rcases hSu c hc with ⟨hc1, hc2⟩ | ⟨hc1, hc2⟩ <;> simp [hc1, hc2]

/-- Claim C9 counterexample: the format is claimed "for every possible
value of the time and randomness inputs", but the time 5 (5 ms after the
epoch — `Date.now().toString()` is `"5"`, so `slice(-8)` keeps a single
digit) together with the random draw 0 (`(0).toString(36)` is `"0"`, so
`substring(2, 6)` is empty) generates `"ORD-5-"`, which does not match
`PREFIX-########-XXXX`. -/
theorem c9_counterexample :
    generateOrderNumber 5 [] = "ORD-5-" ∧
    isOrderFormat (generateOrderNumber 5 []) = false := by
  decide

/-- Claim C9 (amended): the generated order number matches
`ORD-########-XXXX` — the fixed prefix, a hyphen, exactly 8 decimal
digits from the creation time, a hyphen, and exactly 4 uppercase
alphanumeric characters — whenever the epoch-millisecond time has at
least 8 decimal digits (`10^7 ≤ now`, true for every real clock reading
since 1970-01-01T02:46:40Z) and the random draw's printed base-36
fractional expansion has at least 4 digits; for smaller times or shorter
expansions (such as the draw 0) a segment comes out shorter. -/
theorem c9_order_number_format (now : Nat) (ds : List Nat)
    (hnow : 10 ^ 7 ≤ now) (hds : 4 ≤ ds.length) (hd36 : ∀ d ∈ ds, d < 36) :
    isOrderFormat (generateOrderNumber now ds) = true := by
  have hne : ds ≠ [] := by
    intro h
    rw [h] at hds
    simp at hds
  have h36 : randToString36 ds = ⟨'0' :: '.' :: ds.map digitChar36⟩ := by
    unfold randToString36
    rw [if_neg hne]
  have hdata : generateOrderNumber now ds =
      ⟨['O', 'R', 'D', '-'] ++
        (((natToString now).data.drop ((natToString now).data.length - 8)) ++
          '-' :: (((ds.map digitChar36).take 4).map Char.toUpper))⟩ := by
    unfold generateOrderNumber strSliceLast strUpper jsSubstring
    rw [h36]
    apply congrArg
    show ['O', 'R', 'D'] ++ ['-'] ++ _ ++ ['-'] ++ _ = _
    simp [List.append_assoc]
  rw [hdata]
  have hlen8 : 8 ≤ (natToString now).data.length := by
    show 8 ≤ ((natDecDigits now).map _).length
    rw [List.length_map]
    exact natDecDigits_len now 7 hnow
  apply isOrderFormat_build
  · rw [List.length_drop]
    omega
  · rw [List.length_map, List.length_take, List.length_map]
    omega
  · intro c hc
    have hc2 := List.mem_of_mem_drop hc
    have hc3 : c ∈ (natDecDigits now).map fun d => Char.ofNat (48 + d) := hc2
    rcases List.mem_map.mp hc3 with ⟨d, hdD, rfl⟩
    have hd10 := natDecDigits_digits_lt now d hdD
    interval_cases d <;> exact ⟨by decide, by decide⟩
  · intro c hc
    rcases List.mem_map.mp hc with ⟨d, hdT, rfl⟩
    have hdm : d ∈ ds.map digitChar36 := List.mem_of_mem_take hdT
    rcases List.mem_map.mp hdm with ⟨e, heds, rfl⟩
    have he' := hd36 e heds
    interval_cases e <;> first
      | exact Or.inl ⟨by decide, by decide⟩
      | exact Or.inr ⟨by decide, by decide⟩

/-- Witness for the amended C9: time `10000000` (the smallest with 8
digits) and base-36 digits `[10, 11, 12, 13]` give `"ORD-10000000-ABCD"`
in the documented format. -/
theorem c9_order_number_format_witness :
    10 ^ 7 ≤ 10000000 ∧ 4 ≤ ([10, 11, 12, 13] : List Nat).length ∧
    (∀ d ∈ ([10, 11, 12, 13] : List Nat), d < 36) ∧
    isOrderFormat (generateOrderNumber 10000000 [10, 11, 12, 13]) = true :=
  ⟨by decide, by decide, by decide,
    c9_order_number_format 10000000 [10, 11, 12, 13] (by decide) (by decide) (by decide)⟩

/-- Claim C5 counterexample: the original claim asserts stability
unconditionally, "including the case where either value is absent".
Sorting `[{k: 5}, {}, {k: 3}]` ascending by `k`: the entity without `k`
compares equal to both neighbours while `5` and `3` still compare
strictly, so the comparator is inconsistent; the stable merge sort
(modelling `Array.prototype.sort`) returns `[{k: 3}, {k: 5}, {}]`,
reordering the pair `({}, {k: 3})` even though it compares equal —
relative order is not preserved. -/
theorem c5_sort_counterexample :
    searchCmp "k" none ([] : Entity) [("k", Value.vNum 3)] = 0 ∧
    List.Sublist [([] : Entity), [("k", Value.vNum 3)]]
      [[("k", Value.vNum 5)], ([] : Entity), [("k", Value.vNum 3)]] ∧
    ¬ List.Sublist [([] : Entity), [("k", Value.vNum 3)]]
      (jsSort (searchCmp "k" none)
        [[("k", Value.vNum 5)], ([] : Entity), [("k", Value.vNum 3)]]) := by
  refine ⟨by decide, by decide, ?_⟩
  have hs : jsSort (searchCmp "k" none)
      [[("k", Value.vNum 5)], ([] : Entity), [("k", Value.vNum 3)]] =
      [[("k", Value.vNum 3)], [("k", Value.vNum 5)], ([] : Entity)] := by
    simp [jsSort, List.mergeSort, List.splitInTwo, List.merge, leOf, searchCmp, getField,
      jsLt, toNum, List.lookup]
  rw [hs]
  decide
